import Mathlib

/-!
Verification development for the SadapDii audio-transcription application.

Shallow embedding of the core components, translated from the TypeScript
sources:

* `useTextSegments.ts` — the transcript segment reconciler
  (`addTranscribedText`, `addRealtimeText`, `updateSegment`, `clearSegments`).
* `FileService` (`generateHtmlContent` / `parseHtmlContent`) — the document
  codec, modelled at the level of the DOM view the code manipulates.
* `AudioRecordingService` (`startRecording`, `stopRecording`, `saveAudioFile`,
  `convertToMp3`, the magnitude loop of `startMagnitudeAnalysis`).

Modelling conventions, stated once here:

* Segment ids produced by `Date.now()`/`Math.random()` string templates are
  opaque and unique in the source; they are modelled by natural numbers drawn
  from a monotone fresh counter `nextId` carried in the state.  Timestamps
  (`Date.now()`) are likewise taken from the counter (or `0` where no claim
  inspects them).
* Browser effects (getUserMedia, MediaRecorder construction and start,
  decodeAudioData plus the lamejs encode loop) are external to the program;
  each is modelled as an explicit parameter carrying its outcome
  (`Except`/`Bool`), so the embedded function is exactly the source's control
  flow over those outcomes.
* The HTML artifact is modelled as the abstract DOM view the code reads back:
  the `h1` element's textContent and the list of `(style.color, textContent)`
  pairs of the spans inside the `.content` container.  `escapeHtml` followed
  by reading `textContent` is the identity on the text, so it does not appear
  in the model.  A browser may report `style.color` either as the written hex
  form or as the resolved `rgb(...)` form; the decoder in the source accepts
  both, and the model keeps the written form, which the decoder's
  disjunction matches.
-/

/-- JS `String.prototype.trim`: remove whitespace from both ends of the
string.  Defined over the character list so that it evaluates inside the
kernel. -/
def jsTrim (s : String) : String :=
  String.mk
    (((s.data.dropWhile Char.isWhitespace).reverse.dropWhile
        Char.isWhitespace).reverse)

/-- `TextSegment` from `src/types` : one provenance-tagged span of transcript
text.  `id` is the opaque unique identifier (modelled as `Nat`), `isUserInput`
is the provenance flag (`true` = User, `false` = Machine). -/
structure TextSegment where
  id : Nat
  text : String
  isUserInput : Bool
  timestamp : Nat
deriving DecidableEq, Repr

/-- The state held by the `useTextSegments` hook: the ordered segment list,
the id of the current provisional (realtime temporary) segment if any, and
the fresh-value counter modelling `Date.now()`/`Math.random()`. -/
structure SegmentsState where
  segments : List TextSegment
  currentRealtimeId : Option Nat
  nextId : Nat
deriving DecidableEq, Repr

/-- The hook's initial state: `useState([])` and `useState(null)`. -/
def initialState : SegmentsState :=
  { segments := [], currentRealtimeId := none, nextId := 0 }

/-- `addTranscribedText` from `useTextSegments.ts`: append a new permanent
machine segment with the trimmed text.  Note the source has no whitespace
guard here. -/
def addTranscribedText (text : String) (st : SegmentsState) : SegmentsState :=
  { st with
    segments := st.segments ++
      [{ id := st.nextId, text := jsTrim text, isUserInput := false,
         timestamp := st.nextId }],
    nextId := st.nextId + 1 }

/-- `addRealtimeText` from `useTextSegments.ts`.  Empty/whitespace text is
ignored.  A final event removes the tracked temporary segment (when one is
tracked) and appends a permanent segment at the tail, clearing the tracked
id.  A non-final event updates the tracked temporary segment in place, or
creates and tracks a fresh one when none is tracked. -/
def addRealtimeText (text : String) (isFinal : Bool) (st : SegmentsState) :
    SegmentsState :=
  if jsTrim text = "" then st
  else if isFinal then
    match st.currentRealtimeId with
    | some i =>
        { segments := st.segments.filter (fun s => ! (s.id == i)) ++
            [{ id := st.nextId, text := jsTrim text, isUserInput := false,
               timestamp := st.nextId }],
          currentRealtimeId := none, nextId := st.nextId + 1 }
    | none =>
        { segments := st.segments ++
            [{ id := st.nextId, text := jsTrim text, isUserInput := false,
               timestamp := st.nextId }],
          currentRealtimeId := none, nextId := st.nextId + 1 }
  else
    match st.currentRealtimeId with
    | some i =>
        { st with
          segments := st.segments.map (fun s =>
            if s.id == i then { s with text := jsTrim text } else s) }
    | none =>
        { segments := st.segments ++
            [{ id := st.nextId, text := jsTrim text, isUserInput := false,
               timestamp := st.nextId }],
          currentRealtimeId := some st.nextId, nextId := st.nextId + 1 }

/-- `updateSegment` from `useTextSegments.ts`: replace text and provenance of
the segment matching `id`, in place. -/
def updateSegment (id : Nat) (newText : String) (isUserInput : Bool)
    (st : SegmentsState) : SegmentsState :=
  { st with
    segments := st.segments.map (fun s =>
      if s.id == id then { s with text := newText, isUserInput := isUserInput }
      else s) }

/-- `clearSegments` from `useTextSegments.ts`: only `setSegments([])` — the
source does NOT reset `currentRealtimeId`. -/
def clearSegments (st : SegmentsState) : SegmentsState :=
  { st with segments := [] }

/-- A recognition event as delivered to `addRealtimeText`: `interim` is a
partial (non-final) result, `final` a confirmed one. -/
inductive RecognitionEvent where
  | interim (text : String)
  | final (text : String)
deriving DecidableEq, Repr

/-- Dispatch one recognition event to `addRealtimeText`. -/
def applyEvent (st : SegmentsState) (e : RecognitionEvent) : SegmentsState :=
  match e with
  | RecognitionEvent.interim t => addRealtimeText t false st
  | RecognitionEvent.final t => addRealtimeText t true st

/-- Process a finite event sequence starting from the empty hook state. -/
def runEvents (es : List RecognitionEvent) : SegmentsState :=
  es.foldl applyEvent initialState

/-- A segment is provisional when its id is the tracked current-realtime id. -/
def isProvisional (st : SegmentsState) (s : TextSegment) : Bool :=
  match st.currentRealtimeId with
  | some i => s.id == i
  | none => false

/-- Number of provisional segments in the list. -/
def countProvisional (st : SegmentsState) : Nat :=
  (st.segments.filter (fun s => isProvisional st s)).length

/-- Abstract DOM view of the generated HTML document: the `h1` textContent
(`none` when no `h1` element exists) and the `(style.color, textContent)`
pairs of the spans inside the `.content` container (`none` when no such
container exists). -/
structure HtmlDoc where
  h1Text : Option String
  contentSpans : Option (List (String × String))
deriving DecidableEq, Repr

/-- `FileService.generateHtmlContent`: the title (escaped, hence recovered
verbatim by textContent) becomes the `h1`; each segment becomes a span whose
color is the accent `#22c55e` for user input and `#000000` otherwise, with
the segment's text as content. -/
def generateHtmlContent (title : String) (segments : List TextSegment) :
    HtmlDoc :=
  { h1Text := some title,
    contentSpans := some (segments.map (fun s =>
      (if s.isUserInput then "#22c55e" else "#000000", s.text))) }

/-- The span-processing loop of `FileService.parseHtmlContent`: for each span
(indexed from `idx`), drop it when its trimmed text is empty, otherwise emit
a segment with the trimmed text and provenance decided by comparing the color
against both the resolved-pixel and the symbolic form of the accent color.
The `loaded_` id is modelled by the span index; `Date.now()` by `0`. -/
def parseSpans : Nat → List (String × String) → List TextSegment
  | _, [] => []
  | idx, (color, text) :: rest =>
      if jsTrim text = "" then parseSpans (idx + 1) rest
      else
        { id := idx, text := jsTrim text,
          isUserInput := (color == "rgb(34, 197, 94)" || color == "#22c55e"),
          timestamp := 0 } :: parseSpans (idx + 1) rest

/-- `FileService.parseHtmlContent`: the title is the `h1` textContent,
defaulting to `"Untitled"` when the element is absent or its text is empty
(JS falsiness of the empty string); a document with no `.content` container
fails with the `Invalid HTML structure` error; otherwise the spans are
processed by `parseSpans`. -/
def parseHtmlContent (doc : HtmlDoc) :
    Except String (String × List TextSegment) :=
  let title :=
    match doc.h1Text with
    | some t => if t = "" then "Untitled" else t
    | none => "Untitled"
  match doc.contentSpans with
  | none => Except.error "Invalid HTML structure"
  | some spans => Except.ok (title, parseSpans 0 spans)

/-- Mutable fields of `AudioRecordingService` relevant to the session
lifecycle.  Stream handles are `Nat`; `stoppedTracks` records the handles
whose tracks have been stopped (released), so a leak is visible as a handle
that is retained or never stopped. -/
structure RecorderServiceState where
  mediaRecorder : Option Nat
  stream : Option Nat
  audioChunks : List Nat
  stoppedTracks : List Nat
deriving DecidableEq, Repr

/-- Freshly constructed service: all fields null/empty. -/
def initialService : RecorderServiceState :=
  { mediaRecorder := none, stream := none, audioChunks := [],
    stoppedTracks := [] }

/-- `AudioRecordingService.startRecording`.  `acquired` is the outcome of
phase 1 (getUserMedia / getDisplayMedia): on failure the catch block logs and
returns `false` with `this.stream` unassigned.  On success `this.stream` is
set; `recorderOk` is the outcome of phase 2 (MediaRecorder construction and
`start`): on success the recorder is installed, the chunk buffer reset, and
the call returns `true`; on failure the catch block again just returns
`false` — the source neither stops the acquired stream's tracks nor clears
`this.stream` on this path. -/
def startRecording (st : RecorderServiceState) (acquired : Except String Nat)
    (recorderOk : Bool) : Bool × RecorderServiceState :=
  match acquired with
  | Except.error _ => (false, st)
  | Except.ok h =>
      if recorderOk then
        (true, { st with stream := some h, mediaRecorder := some h,
                         audioChunks := [] })
      else
        (false, { st with stream := some h })

/-- `AudioRecordingService.cleanup`: stop the stream's tracks and null out
recorder, stream and chunk buffer. -/
def cleanup (st : RecorderServiceState) : RecorderServiceState :=
  { mediaRecorder := none, stream := none, audioChunks := [],
    stoppedTracks := st.stoppedTracks ++ st.stream.toList }

/-- `AudioRecordingService.stopRecording`: with no recorder the promise is
rejected with the `No active recording` error; otherwise the accumulated
chunks are returned as the artifact and `cleanup` runs. -/
def stopRecording (st : RecorderServiceState) :
    Except String (List Nat × RecorderServiceState) :=
  match st.mediaRecorder with
  | none => Except.error "No active recording"
  | some _ => Except.ok (st.audioChunks, cleanup st)

/-- An audio blob: payload bytes and MIME type. -/
structure Blob where
  data : List Nat
  mimeType : String
deriving DecidableEq, Repr

/-- `AudioFormat` from `audioRecording.ts`. -/
inductive AudioFormat where
  | webm
  | mp3
deriving DecidableEq, Repr

/-- `AudioRecordingService.convertToMp3`.  `encoded` is the outcome of the
try block (decodeAudioData, PCM conversion and the lamejs encode loop): on
success the MP3 bytes are wrapped with type `audio/mp3`; on any failure the
catch block returns the ORIGINAL blob's bytes relabelled `audio/mp3`
(the source's `Fallback: return original blob with MP3 type`). -/
def convertToMp3 (audioBlob : Blob) (encoded : Except String (List Nat)) :
    Blob :=
  match encoded with
  | Except.ok bytes => { data := bytes, mimeType := "audio/mp3" }
  | Except.error _ => { data := audioBlob.data, mimeType := "audio/mp3" }

/-- `AudioRecordingService.saveAudioFile`: for `mp3` the blob is passed
through `convertToMp3` and saved under `filename.mp3`; otherwise the blob is
saved unchanged under `filename.webm`.  The result is the (filename, blob)
pair handed to `saveAs`. -/
def saveAudioFile (audioBlob : Blob) (filename : String)
    (format : AudioFormat) (encoded : Except String (List Nat)) :
    String × Blob :=
  match format with
  | AudioFormat.mp3 => (filename ++ ".mp3", convertToMp3 audioBlob encoded)
  | AudioFormat.webm => (filename ++ ".webm", audioBlob)

/-- One tick of the `updateMagnitude` loop in
`AudioRecordingService.startMagnitudeAnalysis`: average the frequency-bin
values, divide by 128 and clamp above at 1 (`Math.min(average / 128, 1)`). -/
def updateMagnitude (bins : List Nat) : ℚ :=
  min (((bins.sum : ℚ) / (bins.length : ℚ)) / 128) 1

/-! ### Helper lemmas about the reconciler -/

/-- The invariant carried through event processing: every segment id is below
the fresh counter, and at most one segment is provisional. -/
def ReconcilerInv (st : SegmentsState) : Prop :=
  (∀ s ∈ st.segments, s.id < st.nextId) ∧ countProvisional st ≤ 1

lemma inv_initialState : ReconcilerInv initialState := by
  constructor
  · intro s hs
    simp [initialState] at hs
  · decide

lemma length_filter_key (l : List TextSegment) (f : TextSegment → TextSegment)
    (hf : ∀ s, (f s).id = s.id) (i : Nat) :
    ((l.map f).filter (fun s => s.id == i)).length
      = (l.filter (fun s => s.id == i)).length := by
  induction l with
  | nil => rfl
  | cons a l ih =>
      simp only [List.map_cons, List.filter_cons, hf a]
      by_cases hi : a.id = i
      · simp [hi, ih]
      · simp [hi, ih]

lemma setText_id (j : Nat) (t : String) (s : TextSegment) :
    (if s.id == j then { s with text := jsTrim t } else s).id = s.id := by
  by_cases h : s.id = j <;> simp [h]

lemma length_filter_setText (l : List TextSegment) (i j : Nat) (t : String) :
    ((l.map (fun s =>
        if s.id == j then { s with text := jsTrim t } else s)).filter
          (fun s => s.id == i)).length
      = (l.filter (fun s => s.id == i)).length :=
  length_filter_key l _ (setText_id j t) i

lemma filter_id_eq_nil (l : List TextSegment) (i : Nat)
    (h : ∀ s ∈ l, s.id ≠ i) : l.filter (fun s => s.id == i) = [] := by
  induction l with
  | nil => rfl
  | cons a l ih =>
      have ha : ¬ (a.id == i) = true := by
        simpa using h a (List.mem_cons_self a l)
      simp only [List.filter_cons, ha, if_false]
      exact ih (fun s hs => h s (List.mem_cons_of_mem a hs))

lemma filter_ne_eq_self (l : List TextSegment) (i : Nat)
    (h : ∀ s ∈ l, s.id ≠ i) : l.filter (fun s => ! (s.id == i)) = l := by
  induction l with
  | nil => rfl
  | cons a l ih =>
      have ha : (a.id == i) = false := by
        simpa using h a (List.mem_cons_self a l)
      simp only [List.filter_cons, ha]
      simp [ih (fun s hs => h s (List.mem_cons_of_mem a hs))]

lemma inv_addRealtimeText (text : String) (isFinal : Bool)
    (st : SegmentsState) (h : ReconcilerInv st) :
    ReconcilerInv (addRealtimeText text isFinal st) := by
  obtain ⟨hb, hc⟩ := h
  by_cases ht : jsTrim text = ""
  · rw [show addRealtimeText text isFinal st = st from by
      simp [addRealtimeText, ht]]
    exact ⟨hb, hc⟩
  · cases isFinal with
    | true =>
        cases hcur : st.currentRealtimeId with
        | some i =>
            rw [show addRealtimeText text true st =
                { segments := st.segments.filter (fun s => ! (s.id == i)) ++
                    [{ id := st.nextId, text := jsTrim text,
                       isUserInput := false, timestamp := st.nextId }],
                  currentRealtimeId := none, nextId := st.nextId + 1 } from by
              simp [addRealtimeText, ht, hcur]]
            constructor
            · intro s hs
              simp only [List.mem_append, List.mem_filter,
                List.mem_singleton] at hs
              rcases hs with ⟨hmem, _⟩ | rfl
              · exact Nat.lt_succ_of_lt (hb s hmem)
              · exact Nat.lt_succ_self _
            · simp [countProvisional, isProvisional]
        | none =>
            rw [show addRealtimeText text true st =
                { segments := st.segments ++
                    [{ id := st.nextId, text := jsTrim text,
                       isUserInput := false, timestamp := st.nextId }],
                  currentRealtimeId := none, nextId := st.nextId + 1 } from by
              simp [addRealtimeText, ht, hcur]]
            constructor
            · intro s hs
              simp only [List.mem_append, List.mem_singleton] at hs
              rcases hs with hmem | rfl
              · exact Nat.lt_succ_of_lt (hb s hmem)
              · exact Nat.lt_succ_self _
            · simp [countProvisional, isProvisional]
    | false =>
        cases hcur : st.currentRealtimeId with
        | some i =>
            rw [show addRealtimeText text false st =
                { st with segments := st.segments.map (fun s =>
                    if s.id == i then { s with text := jsTrim text }
                    else s) } from by
              simp [addRealtimeText, ht, hcur]]
            constructor
            · intro s hs
              simp only [List.mem_map] at hs
              obtain ⟨a, ha, rfl⟩ := hs
              by_cases hai : a.id == i <;> simpa [hai] using hb a ha
            · simp only [countProvisional, isProvisional, hcur] at hc ⊢
              rw [length_filter_setText]
              exact hc
        | none =>
            rw [show addRealtimeText text false st =
                { segments := st.segments ++
                    [{ id := st.nextId, text := jsTrim text,
                       isUserInput := false, timestamp := st.nextId }],
                  currentRealtimeId := some st.nextId,
                  nextId := st.nextId + 1 } from by
              simp [addRealtimeText, ht, hcur]]
            constructor
            · intro s hs
              simp only [List.mem_append, List.mem_singleton] at hs
              rcases hs with hmem | rfl
              · exact Nat.lt_succ_of_lt (hb s hmem)
              · exact Nat.lt_succ_self _
            · simp only [countProvisional, isProvisional]
              rw [List.filter_append,
                filter_id_eq_nil st.segments st.nextId
                  (fun s hs => Nat.ne_of_lt (hb s hs))]
              simp

lemma inv_applyEvent (st : SegmentsState) (e : RecognitionEvent)
    (h : ReconcilerInv st) : ReconcilerInv (applyEvent st e) := by
  cases e with
  | interim t => exact inv_addRealtimeText t false st h
  | final t => exact inv_addRealtimeText t true st h

lemma inv_foldl (es : List RecognitionEvent) :
    ∀ st : SegmentsState, ReconcilerInv st → ReconcilerInv (es.foldl applyEvent st) := by
  induction es with
  | nil => exact fun st h => h
  | cons e es ih =>
      intro st h
      exact ih (applyEvent st e) (inv_applyEvent st e h)

/-! ### Claims about the transcript segment reconciler -/

/-- Claim C2: starting from the empty segment list, after any finite sequence
of Partial and Final recognition events (`addRealtimeText` calls), the number
of provisional segments in the list — segments whose id is the tracked
current-realtime id — is always 0 or 1. -/
theorem at_most_one_provisional (es : List RecognitionEvent) :
    countProvisional (runEvents es) ≤ 1 :=
  (inv_foldl es initialState inv_initialState).2

/-- Claim C5: processing Partial "hel", Partial "hello", Final "hello world"
from the empty list yields exactly one segment, with text "hello world" and
not provisional; and in general a Final event with non-whitespace text
removes the current provisional segment from its position and appends a new
non-provisional machine segment at the tail, clearing the tracked id. -/
theorem final_supersedes_provisional :
    ((runEvents [RecognitionEvent.interim "hel", RecognitionEvent.interim "hello",
        RecognitionEvent.final "hello world"]).segments.map
          (fun s => (s.text, s.isUserInput)) = [("hello world", false)] ∧
      countProvisional (runEvents [RecognitionEvent.interim "hel",
        RecognitionEvent.interim "hello",
        RecognitionEvent.final "hello world"]) = 0) ∧
    ∀ (st : SegmentsState) (text : String), jsTrim text ≠ "" →
      (addRealtimeText text true st).segments =
          st.segments.filter (fun s => ! isProvisional st s) ++
            [{ id := st.nextId, text := jsTrim text, isUserInput := false,
               timestamp := st.nextId }] ∧
        (addRealtimeText text true st).currentRealtimeId = none := by
  constructor
  · constructor
    · decide
    · decide
  · intro st text ht
    cases hcur : st.currentRealtimeId with
    | none =>
        constructor
        · simp [addRealtimeText, ht, hcur, isProvisional]
        · simp [addRealtimeText, ht, hcur]
    | some i =>
        constructor
        · simp [addRealtimeText, ht, hcur, isProvisional]
        · simp [addRealtimeText, ht, hcur]

/-- Witness for C5's general conjunct at a concrete input. -/
theorem final_supersedes_provisional_witness :
    jsTrim "ok" ≠ "" ∧
      (addRealtimeText "ok" true initialState).segments =
          initialState.segments.filter
              (fun s => ! isProvisional initialState s) ++
            [{ id := initialState.nextId, text := jsTrim "ok",
               isUserInput := false, timestamp := initialState.nextId }] :=
  ⟨by decide,
    (final_supersedes_provisional.2 initialState "ok" (by decide)).1⟩

/-- Claim C10: a Final (or Partial) event whose text is empty or
whitespace-only is ignored entirely — the state, hence the segment list and
the tracked provisional reference, is unchanged. -/
theorem whitespace_final_ignored (text : String) (isFinal : Bool)
    (st : SegmentsState) (h : jsTrim text = "") :
    addRealtimeText text isFinal st = st := by
  simp [addRealtimeText, h]

/-- Witness for C10: a whitespace-only Final event leaves a state holding a
provisional segment untouched. -/
theorem whitespace_final_ignored_witness :
    jsTrim "   " = "" ∧
      addRealtimeText "   " true (runEvents [RecognitionEvent.interim "hi"]) =
        runEvents [RecognitionEvent.interim "hi"] :=
  ⟨by decide,
    whitespace_final_ignored "   " true
      (runEvents [RecognitionEvent.interim "hi"]) (by decide)⟩

/-- Claim C6 (divergence witness): `clearSegments` empties the list but does
NOT discard the provisional reference, so a Partial event arriving after
`clear()` targets the stale pre-clear id — its map updates nothing and no
fresh provisional segment is appended: the list stays empty and the stale
reference survives. -/
theorem clear_retains_provisional_ref :
    (clearSegments (runEvents [RecognitionEvent.interim "a"])).segments
        = [] ∧
      (clearSegments
          (runEvents [RecognitionEvent.interim "a"])).currentRealtimeId
        = some 0 ∧
      (addRealtimeText "hi" false
          (clearSegments (runEvents [RecognitionEvent.interim "a"]))).segments
        = [] ∧
      (addRealtimeText "hi" false
          (clearSegments
            (runEvents [RecognitionEvent.interim "a"]))).currentRealtimeId
        = some 0 := by
  decide

/-- Counterexample to claim C8 as stated: for whitespace-only text the batch
handler `addTranscribedText` appends a segment with empty text while a Final
event is ignored, so the resulting lists differ even up to id and
timestamp. -/
theorem batch_final_equiv_counterexample :
    countProvisional initialState = 0 ∧
      (addTranscribedText " " initialState).segments.map
          (fun s => (s.text, s.isUserInput)) ≠
        (addRealtimeText " " true initialState).segments.map
          (fun s => (s.text, s.isUserInput)) := by
  decide

/-- Claim C8 as amended: for every text whose trimmed form is non-empty and
every state with no provisional segment present, the batch handler and a
single Final event produce the same list up to segment id and timestamp. -/
theorem batch_final_equiv_amended (text : String) (st : SegmentsState)
    (ht : jsTrim text ≠ "") (hp : countProvisional st = 0) :
    (addTranscribedText text st).segments.map
        (fun s => (s.text, s.isUserInput))
      = (addRealtimeText text true st).segments.map
          (fun s => (s.text, s.isUserInput)) := by
  cases hcur : st.currentRealtimeId with
  | none => simp [addTranscribedText, addRealtimeText, ht, hcur]
  | some i =>
      have hnone : ∀ s ∈ st.segments, s.id ≠ i := by
        simp only [countProvisional, isProvisional, hcur] at hp
        rw [List.length_eq_zero] at hp
        intro s hs hcontra
        have hmem : s ∈ st.segments.filter (fun s => s.id == i) :=
          List.mem_filter.mpr ⟨hs, by simp [hcontra]⟩
        rw [hp] at hmem
        exact absurd hmem (List.not_mem_nil s)
      simp [addTranscribedText, addRealtimeText, ht, hcur,
        filter_ne_eq_self st.segments i hnone]

/-- Witness for the amended C8 at a concrete input. -/
theorem batch_final_equiv_amended_witness :
    jsTrim "hello" ≠ "" ∧ countProvisional initialState = 0 ∧
      (addTranscribedText "hello" initialState).segments.map
          (fun s => (s.text, s.isUserInput))
        = (addRealtimeText "hello" true initialState).segments.map
            (fun s => (s.text, s.isUserInput)) :=
  ⟨by decide, by decide,
    batch_final_equiv_amended "hello" initialState (by decide) (by decide)⟩

/-! ### Claims about the document codec -/

lemma parseSpans_encode (segments : List TextSegment) (k : Nat)
    (hs : ∀ s ∈ segments, jsTrim s.text = s.text ∧ s.text ≠ "") :
    (parseSpans k (segments.map (fun s =>
        (if s.isUserInput then "#22c55e" else "#000000", s.text)))).map
          (fun s => (s.text, s.isUserInput))
      = segments.map (fun s => (s.text, s.isUserInput)) := by
  induction segments generalizing k with
  | nil => rfl
  | cons a l ih =>
      obtain ⟨hta, hna⟩ := hs a (List.mem_cons_self a l)
      have hl : ∀ s ∈ l, jsTrim s.text = s.text ∧ s.text ≠ "" :=
        fun s hsl => hs s (List.mem_cons_of_mem a hsl)
      have htrim : ¬ jsTrim a.text = "" := by rw [hta]; exact hna
      cases hu : a.isUserInput with
      | false => simp [parseSpans, htrim, hta, hna, hu, ih (k + 1) hl]
      | true => simp [parseSpans, htrim, hta, hna, hu, ih (k + 1) hl]

/-- Counterexample to claim C1 as stated: with the empty title and a segment
whose text is non-empty after trimming but carries surrounding whitespace,
decoding the encoding yields the placeholder title "Untitled" (not the
original empty title) and the trimmed text "a" (not the original " a "). -/
theorem codec_roundtrip_counterexample :
    jsTrim " a " ≠ "" ∧
      parseHtmlContent (generateHtmlContent ""
          [{ id := 7, text := " a ", isUserInput := false, timestamp := 3 }])
        = Except.ok ("Untitled",
            [{ id := 0, text := "a", isUserInput := false, timestamp := 0 }]) ∧
      ("Untitled" : String) ≠ "" ∧ ("a" : String) ≠ " a " :=
  ⟨by decide, by rfl, by decide, by decide⟩

/-- Claim C1 as amended: for every non-empty title and every segment list
whose texts are non-empty and trimmed, decoding the encoding succeeds and
yields the same title and a segment list matching pairwise, in order, on the
(text, provenance) pair; id and timestamp need not be preserved. -/
theorem codec_roundtrip_amended (title : String)
    (segments : List TextSegment) (ht : title ≠ "")
    (hs : ∀ s ∈ segments, jsTrim s.text = s.text ∧ s.text ≠ "") :
    ∃ segs,
      parseHtmlContent (generateHtmlContent title segments) =
          Except.ok (title, segs) ∧
        segs.map (fun s => (s.text, s.isUserInput)) =
          segments.map (fun s => (s.text, s.isUserInput)) := by
  refine ⟨parseSpans 0 (segments.map (fun s =>
    (if s.isUserInput then "#22c55e" else "#000000", s.text))), ?_, ?_⟩
  · simp [parseHtmlContent, generateHtmlContent, ht]
  · exact parseSpans_encode segments 0 hs

/-- Witness for the amended C1 at a concrete input. -/
theorem codec_roundtrip_amended_witness :
    ("T" : String) ≠ "" ∧
      ∃ segs,
        parseHtmlContent (generateHtmlContent "T"
            [{ id := 5, text := "hi", isUserInput := true, timestamp := 9 },
             { id := 6, text := "there", isUserInput := false,
               timestamp := 9 }]) = Except.ok ("T", segs) ∧
          segs.map (fun s => (s.text, s.isUserInput)) =
            ([{ id := 5, text := "hi", isUserInput := true, timestamp := 9 },
              { id := 6, text := "there", isUserInput := false,
                timestamp := 9 }] : List TextSegment).map
              (fun s => (s.text, s.isUserInput)) :=
  ⟨by decide,
    codec_roundtrip_amended "T"
      [{ id := 5, text := "hi", isUserInput := true, timestamp := 9 },
       { id := 6, text := "there", isUserInput := false, timestamp := 9 }]
      (by decide) (by decide)⟩

/-! ### Claims about the audio recording service -/

/-- Claim C3 (divergence witness): when the MP3 encode step fails,
`saveAudioFile` via `convertToMp3` does not surface any error — it hands
`saveAs` the UNCONVERTED input bytes relabelled with the MP3 type. -/
theorem convertToMp3_failure_mislabels (audioBlob : Blob) (filename : String)
    (e : String) :
    saveAudioFile audioBlob filename AudioFormat.mp3 (Except.error e) =
      (filename ++ ".mp3",
        { data := audioBlob.data, mimeType := "audio/mp3" }) := by
  rfl

/-- Counterexample to claim C4 as stated: with a recording session already
active (a recorder installed by a first successful `startRecording`), a
second `startRecording` does not fail with AlreadyRecording — it returns
`true` and begins a new capture, overwriting the session handles. -/
theorem start_guard_counterexample :
    (startRecording initialService (Except.ok 1) true).2.mediaRecorder
        = some 1 ∧
      (startRecording (startRecording initialService (Except.ok 1) true).2
          (Except.ok 2) true).1 = true ∧
      (startRecording (startRecording initialService (Except.ok 1) true).2
          (Except.ok 2) true).2.mediaRecorder = some 2 := by
  decide

/-- Claim C4 as amended: `startRecording` has no already-active guard —
whenever acquisition and recorder setup succeed it returns success and
installs a new capture regardless of the current state — while
`stopRecording` with no active recorder does fail, with the
`No active recording` error. -/
theorem start_stop_guards_amended :
    (∀ (st : RecorderServiceState) (n : Nat),
        (startRecording st (Except.ok n) true).1 = true ∧
          (startRecording st (Except.ok n) true).2.mediaRecorder = some n) ∧
      ∀ st : RecorderServiceState, st.mediaRecorder = none →
        stopRecording st = Except.error "No active recording" := by
  constructor
  · intro st n
    exact ⟨rfl, rfl⟩
  · intro st h
    simp [stopRecording, h]

/-- Witness for the amended C4 at a concrete input. -/
theorem start_stop_guards_amended_witness :
    initialService.mediaRecorder = none ∧
      stopRecording initialService = Except.error "No active recording" ∧
      (startRecording initialService (Except.ok 1) true).1 = true :=
  ⟨rfl, start_stop_guards_amended.2 initialService rfl,
    (start_stop_guards_amended.1 initialService 1).1⟩

/-- Claim C7 (divergence witness): when phase 1 (stream acquisition) succeeds
and phase 2 (recorder setup) fails, `startRecording` returns the failure but
keeps the acquired stream handle installed and never stops its tracks — the
stream is leaked, not released. -/
theorem start_phase2_stream_leak :
    (startRecording initialService (Except.ok 5) false).1 = false ∧
      (startRecording initialService (Except.ok 5) false).2.stream = some 5 ∧
      (startRecording initialService (Except.ok 5) false).2.stoppedTracks
        = [] := by
  decide

/-- Claim C9: for every non-empty frequency-bin array whose entries lie in
0..255, the loudness delivered to the magnitude callback — the mean of the
bin values divided by 128, clamped above by 1 — lies in [0,1].  (The array in
the source has fixed length `frequencyBinCount = 128`, hence is non-empty;
the hypothesis excludes the 0/0 division the source never performs.) -/
theorem magnitude_clamped (bins : List Nat) (hne : bins ≠ [])
    (hb : ∀ b ∈ bins, b ≤ 255) :
    0 ≤ updateMagnitude bins ∧ updateMagnitude bins ≤ 1 := by
  constructor
  · apply le_min
    · apply div_nonneg
      · apply div_nonneg
        · exact_mod_cast Nat.zero_le _
        · exact_mod_cast Nat.zero_le _
      · norm_num
    · norm_num
  · exact min_le_right _ _

/-- Witness for C9 at a concrete bin array. -/
theorem magnitude_clamped_witness :
    0 ≤ updateMagnitude [0, 128, 255] ∧ updateMagnitude [0, 128, 255] ≤ 1 :=
  magnitude_clamped [0, 128, 255] (by decide) (by decide)
